import Mathlib

/-!
Verification of the peon-ping decision engine, session-state model and
sound selector (`peon.py`), as a shallow embedding in Lean 4.

Conventions of the embedding:
* Python dicts that map strings to values become association lists
  (`List (String × α)`) with `lookupA` / `insertA` / `eraseA`.
* `time.time()` values and the float-valued config windows become `ℚ`;
  all calls to `time.time()` inside a single invocation of the hook
  handler are modelled by one `now` parameter.
* `random.choice(xs)` is modelled by an extra parameter `k : Nat` and the
  selection `xs.get? (k % xs.length)`; `random.choice` on an empty list
  raises `IndexError`, modelled by a distinguished result.
* Filesystem paths become lists of path segments; `os.path.realpath` is
  modelled by segment normalisation (symlinks are out of scope).
-/

namespace Peon

/-! ## Association lists (Python dict usage) -/

/-- Dict lookup: value stored under key `k`, if any. -/
def lookupA {α : Type} : List (String × α) → String → Option α
  | [], _ => none
  | p :: m, k => if p.1 = k then some p.2 else lookupA m k

/-- Dict deletion (`dict.pop(k, ...)` discarding the value). -/
def eraseA {α : Type} : List (String × α) → String → List (String × α)
  | [], _ => []
  | p :: m, k => if p.1 = k then eraseA m k else p :: eraseA m k

/-- Dict update `m[k] = v`. -/
def insertA {α : Type} (m : List (String × α)) (k : String) (v : α) : List (String × α) :=
  eraseA m k ++ [(k, v)]

/-! ## Path model and the sound selector (`pick_sound`) -/

/-- One entry of a manifest category's sounds list; only the `file` field is
read by `pick_sound` (labels are ignored). -/
structure Sound where
  file : String
deriving Repr, DecidableEq

def splitCharsAux : List Char → List Char → List (List Char)
  | [], acc => [acc.reverse]
  | c :: cs, acc =>
    if c = '/' then acc.reverse :: splitCharsAux cs [] else splitCharsAux cs (c :: acc)

/-- Split a string into path segments on the separator, as `os.path` sees it:
`splitOnSlash "a/b" = ["a", "b"]`, `splitOnSlash "x" = ["x"]`. -/
def splitOnSlash (s : String) : List String :=
  (splitCharsAux s.toList []).map (fun l => String.mk l)

/-- The test for a path separator in a manifest file reference. -/
def containsSlash (s : String) : Bool :=
  s.toList.contains '/'

/-- Whether a reference is absolute (`os.path.join` then discards the base). -/
def startsWithSlash (s : String) : Bool :=
  match s.toList with
  | [] => false
  | c :: _ => c == '/'

/-- One step of path normalisation: empty and dot segments vanish, a
dot-dot segment removes the previous segment (no-op at the root). -/
def normStep (acc : List String) (s : String) : List String :=
  if s = "" then acc
  else if s = "." then acc
  else if s = ".." then acc.dropLast
  else acc ++ [s]

/-- Normalisation performed by `os.path.realpath` on an absolute path given
as segments below the filesystem root (symlink resolution is out of scope). -/
def normSegs (segs : List String) : List String :=
  segs.foldl normStep []

/-- Resolution of a manifest file reference in `pick_sound`: a reference with
a separator resolves against the pack root (`os.path.join` semantics, so an
absolute reference discards the base), a bare filename resolves against the
pack's `sounds` subdirectory; the join is then normalised. -/
def resolveRef (packRoot : List String) (fileRef : String) : List String :=
  if containsSlash fileRef then
    if startsWithSlash fileRef then normSegs (splitOnSlash fileRef)
    else normSegs (packRoot ++ splitOnSlash fileRef)
  else normSegs (packRoot ++ ["sounds"] ++ splitOnSlash fileRef)

/-- The check `candidate.startswith(os.path.realpath(pack_dir) + os.sep)`:
in segment form, the pack root is a proper prefix of the candidate. -/
def insideRoot (root p : List String) : Bool :=
  root.isPrefixOf p && decide (root.length < p.length)

/-- Outcome of one `pick_sound` call.  `noSound` is the early `return None`
for a missing/empty category (no state touched); `indexError` models
`random.choice` raising on an empty candidate list; `picked f path` models
choosing entry `f` — which assigns `state["last_played"][category] = f` —
followed by the path-safety and on-disk existence checks, `path = none`
meaning `pick_sound` returns `None` after that assignment. -/
inductive PickResult where
  | noSound : PickResult
  | indexError : PickResult
  | picked (file : String) (path : Option (List String)) : PickResult
deriving Repr, DecidableEq

/-- The candidate pool: with more than one sound, entries whose file equals
the last-played file are excluded; with exactly one sound, it stays. -/
def candidatesOf (sounds : List Sound) (lastFile : String) : List Sound :=
  if sounds.length > 1 then sounds.filter (fun s => s.file != lastFile) else sounds

/-- `pick_sound` from `peon.py`, for one pack and category.  `packRoot` is the
realpath of the pack directory as segments, `sounds` the manifest category's
sounds list, `lastFile` the stored `state["last_played"][category]` (empty
string when absent), `onDisk` the file-existence oracle and `k` the model of
`random.choice`. -/
def pick_sound (packRoot : List String) (sounds : List Sound) (lastFile : String)
    (onDisk : List String → Bool) (k : Nat) : PickResult :=
  if sounds.isEmpty then PickResult.noSound
  else
    match (candidatesOf sounds lastFile).get? (k % (candidatesOf sounds lastFile).length) with
    | none => PickResult.indexError
    | some pk =>
      if insideRoot packRoot (resolveRef packRoot pk.file) then
        PickResult.picked pk.file
          (if onDisk (resolveRef packRoot pk.file) then some (resolveRef packRoot pk.file)
           else none)
      else
        PickResult.picked pk.file none

/-- The update of `state["last_played"]` implied by a `pick_sound` call. -/
def updateLastPlayed (lp : List (String × String)) (category : String) :
    PickResult → List (String × String)
  | PickResult.picked f _ => insertA lp category f
  | _ => lp

/-- The file component of a `picked` outcome. -/
def pickedFile : PickResult → Option String
  | PickResult.picked f _ => some f
  | _ => none

/-- A path segment that normalisation leaves alone, as every segment of a
realpath output is. -/
def cleanSeg (s : String) : Prop := s ≠ "" ∧ s ≠ "." ∧ s ≠ ".."

instance (s : String) : Decidable (cleanSeg s) :=
  inferInstanceAs (Decidable (s ≠ "" ∧ s ≠ "." ∧ s ≠ ".."))

/-! ## Config and session state -/

/-- The configuration fields read by the decision engine, with the source's
defaults.  A `categories` value models `str(v).lower() != "false"` of the
stored JSON value. -/
structure Config where
  enabled : Bool := true
  categories : List (String × Bool) := []
  annoyed_threshold : Nat := 3
  annoyed_window_seconds : ℚ := 10
  silent_window_seconds : ℚ := 0
  active_pack : String := "peon"
  pack_rotation : List String := []
  pack_rotation_mode : String := "random"
deriving Repr, DecidableEq

/-- `str(categories_cfg.get(c, True)).lower() != "false"`. -/
def catCfgEnabled (cfg : Config) (c : String) : Bool :=
  (lookupA cfg.categories c).getD true

/-- The persisted session-state document (`.state.json`), with the defaults
the source substitutes for missing keys. -/
structure PState where
  prompt_timestamps : List (String × List ℚ) := []
  prompt_start_times : List (String × ℚ) := []
  session_packs : List (String × String) := []
  rotation_index : Nat := 0
  agent_sessions : List String := []
  last_stop_time : ℚ := 0
  session_start_times : List (String × ℚ) := []
deriving Repr, DecidableEq

/-- The tuple `route_event` returns. -/
structure Decision where
  category : String
  status : String
  marker : String
  notify : Bool
  notify_color : String
  msg : String
deriving Repr, DecidableEq

/-! ## Event routing (`route_event`) -/

/-- The session's prompt-timestamp list pruned to entries inside the spam
window and with `now` appended, as the UserPromptSubmit branch builds it. -/
def prunedTs (cfg : Config) (st : PState) (sid : String) (now : ℚ) : List ℚ :=
  (((lookupA st.prompt_timestamps sid).getD []).filter
      (fun t => decide (now - t < cfg.annoyed_window_seconds))) ++ [now]

/-- State mutations of the UserPromptSubmit branch: the pruned-and-appended
timestamp list when spam detection is on, then the prompt-start record when
a silent window is configured. -/
def promptStateUpd (cfg : Config) (st : PState) (sid : String) (now : ℚ) : PState :=
  let st1 := if catCfgEnabled cfg "user.spam" then
      { st with prompt_timestamps := insertA st.prompt_timestamps sid (prunedTs cfg st sid now) }
    else st
  if 0 < cfg.silent_window_seconds then
    { st1 with prompt_start_times := insertA st1.prompt_start_times sid now }
  else st1

/-- The prompt-start time a Stop pops for the session (`pop` default 0,
only read when a silent window is configured). -/
def stopStart (cfg : Config) (st : PState) (sid : String) : ℚ :=
  if 0 < cfg.silent_window_seconds then (lookupA st.prompt_start_times sid).getD 0 else 0

/-- State mutation of the Stop branch: the prompt-start entry is consumed. -/
def stopStateUpd (cfg : Config) (st : PState) (sid : String) : PState :=
  if 0 < cfg.silent_window_seconds then
    { st with prompt_start_times := eraseA st.prompt_start_times sid }
  else st

/-- The Stop branch's silent-completion test: a truthy recorded prompt-start
closer to now than the configured window. -/
def stopSilent (cfg : Config) (st : PState) (sid : String) (now : ℚ) : Prop :=
  0 < cfg.silent_window_seconds ∧ stopStart cfg st sid ≠ 0 ∧
    now - stopStart cfg st sid < cfg.silent_window_seconds

instance (cfg : Config) (st : PState) (sid : String) (now : ℚ) :
    Decidable (stopSilent cfg st sid now) :=
  inferInstanceAs (Decidable (0 < cfg.silent_window_seconds ∧ stopStart cfg st sid ≠ 0 ∧
    now - stopStart cfg st sid < cfg.silent_window_seconds))

/-- `route_event` from `peon.py`.  Returns the decision tuple together with
the state as mutated by the per-event rule (`state_updates` merged in), or
`none` when the event is ignored.  `now` models `time.time()` for this
invocation. -/
def route_event (event : String) (notification_type : String) (cfg : Config)
    (st : PState) (session_id : String) (project : String) (now : ℚ) :
    Option (Decision × PState) :=
  if event = "SessionStart" then
    some ({ category := "session.start", status := "ready", marker := "",
            notify := false, notify_color := "", msg := "" }, st)
  else if event = "UserPromptSubmit" then
    some ({ category := if catCfgEnabled cfg "user.spam" ∧
              cfg.annoyed_threshold ≤ (prunedTs cfg st session_id now).length
            then "user.spam" else "",
            status := "working", marker := "", notify := false,
            notify_color := "", msg := "" }, promptStateUpd cfg st session_id now)
  else if event = "Stop" then
    if stopSilent cfg st session_id now then
      some ({ category := "", status := "done", marker := "", notify := false,
              notify_color := "", msg := "" }, stopStateUpd cfg st session_id)
    else
      some ({ category := "task.complete", status := "done", marker := "● ",
              notify := true, notify_color := "blue",
              msg := project ++ "  —  Task complete" }, stopStateUpd cfg st session_id)
  else if event = "Notification" then
    if notification_type = "permission_prompt" then
      some ({ category := "", status := "needs approval", marker := "● ",
              notify := false, notify_color := "", msg := "" }, st)
    else if notification_type = "idle_prompt" then
      some ({ category := "", status := "done", marker := "● ", notify := true,
              notify_color := "yellow", msg := project ++ "  —  Waiting for input" }, st)
    else none
  else if event = "PermissionRequest" then
    some ({ category := "input.required", status := "needs approval", marker := "● ",
            notify := true, notify_color := "red",
            msg := project ++ "  —  Permission needed" }, st)
  else none

/-! ## The hook-event pipeline (`handle_hook_event`) -/

/-- The Cursor-to-canonical event-name alias table. -/
def cursorEventMap : List (String × String) :=
  [("sessionStart", "SessionStart"), ("sessionEnd", "SessionStart"),
   ("beforeSubmitPrompt", "UserPromptSubmit"), ("stop", "Stop"),
   ("preToolUse", "UserPromptSubmit"), ("postToolUse", "Stop"),
   ("subagentStop", "Stop"), ("preCompact", "Stop")]

/-- `_CURSOR_EVENT_MAP.get(raw_event, raw_event)`. -/
def normalizeEvent (raw : String) : String :=
  (lookupA cursorEventMap raw).getD raw

/-- The fields of the stdin JSON payload that the pipeline reads. -/
structure HookInput where
  hook_event_name : String := ""
  notification_type : String := ""
  cwd : String := ""
  workspace_roots : List String := []
  session_id : String := ""
  conversation_id : String := ""
  permission_mode : String := ""
deriving Repr, DecidableEq

/-- `event_data.get("session_id", "") or event_data.get("conversation_id", "")`. -/
def resolveSession (inp : HookInput) : String :=
  if inp.session_id ≠ "" then inp.session_id else inp.conversation_id

/-- `event_data.get("cwd", "") or (workspace_roots[0] if workspace_roots else "")`. -/
def resolveCwd (inp : HookInput) : String :=
  if inp.cwd ≠ "" then inp.cwd else inp.workspace_roots.headD ""

/-- The character class kept by the project-name sanitiser. -/
def projectChar (c : Char) : Bool :=
  c.isAlpha || c.isDigit || c == ' ' || c == '.' || c == '_' || c == '-'

/-- `get_project_name` from `peon.py`. -/
def get_project_name (cwd : String) : String :=
  if cwd = "" then "claude"
  else
    let comps := splitOnSlash (String.mk (cwd.toList.map (fun c => if c = '\\' then '/' else c)))
    let project := comps.getLastD ""
    if project = "" then "claude"
    else
      let cleaned := String.mk (project.toList.filter projectChar)
      if cleaned = "" then "claude" else cleaned

/-- `agent_modes = {"delegate"}`. -/
def agentModes : List String := ["delegate"]

/-- Adding a session id to the persisted `agent_sessions` set. -/
def addToSet (l : List String) (x : String) : List String :=
  if x ∈ l then l else l ++ [x]

/-- Assignment of a rotation pack to a session that has none pinned:
round-robin takes `pack_rotation[rotation_index % len]` and stores that
index plus one; any other mode is `random.choice`, modelled by `k`. -/
def assignPack (cfg : Config) (st : PState) (session_id : String) (k : Nat) :
    String × PState :=
  if cfg.pack_rotation_mode = "round-robin" then
    let idx := st.rotation_index % cfg.pack_rotation.length
    let p := cfg.pack_rotation.getD idx cfg.active_pack
    (p, { st with rotation_index := idx + 1,
                  session_packs := insertA st.session_packs session_id p })
  else
    let p := cfg.pack_rotation.getD (k % cfg.pack_rotation.length) cfg.active_pack
    (p, { st with session_packs := insertA st.session_packs session_id p })

/-- The pack-rotation block of `handle_hook_event`: reuse a pinned pack that
is still in the rotation list, otherwise assign and pin one. -/
def packRotationStep (cfg : Config) (st : PState) (session_id : String) (k : Nat) :
    String × PState :=
  if cfg.pack_rotation ≠ [] ∧ cfg.pack_rotation_mode ≠ "off" then
    match lookupA st.session_packs session_id with
    | some p =>
      if p ∈ cfg.pack_rotation then (p, st)
      else assignPack cfg st session_id k
    | none => assignPack cfg st session_id k
  else (cfg.active_pack, st)

/-- The global 5-second Stop debounce: suppress category and notify when the
previous Stop was under 5 seconds ago and always record `last_stop_time`. -/
def debounceStop (event : String) (cat : String) (ntf : Bool) (st : PState)
    (now : ℚ) : String × Bool × PState :=
  if event = "Stop" then
    if now - st.last_stop_time < 5 then ("", false, { st with last_stop_time := now })
    else (cat, ntf, { st with last_stop_time := now })
  else (cat, ntf, st)

/-- The session-replay suppression block: a SessionStart records its time;
any other event with a category set is silenced when the session's recorded
(truthy) SessionStart time is under 3 seconds old. -/
def replayStep (event : String) (cat : String) (ntf : Bool) (st : PState)
    (session_id : String) (now : ℚ) : String × Bool × PState :=
  if event = "SessionStart" then
    (cat, ntf, { st with session_start_times := insertA st.session_start_times session_id now })
  else if cat ≠ "" then
    if ((lookupA st.session_start_times session_id).getD 0) ≠ 0 ∧
        now - ((lookupA st.session_start_times session_id).getD 0) < 3 then
      ("", false, st)
    else (cat, ntf, st)
  else (cat, ntf, st)

/-- The fixed list of category names the enablement table is built over. -/
def knownCategories : List String :=
  ["session.start", "task.acknowledge", "task.complete", "task.error",
   "input.required", "resource.limit", "user.spam"]

/-- `cat_enabled.get(category, True)` for the table built from config. -/
def catEnabled (cfg : Config) (c : String) : Bool :=
  if c ∈ knownCategories then catCfgEnabled cfg c else true

/-- The category-enablement filter: a non-empty category explicitly disabled
in config is cleared. -/
def enableStep (cfg : Config) (cat : String) : String :=
  if cat ≠ "" ∧ catEnabled cfg cat = false then "" else cat

/-- The decision-relevant output of one `handle_hook_event` invocation:
final category (after all suppressions, before sound playback), the notify
flag, the status label, the pack resolved for the session, and the session
state as persisted on disk when the process exits. -/
structure Outcome where
  category : String
  notify : Bool
  status : String
  active_pack : String
  state : PState
deriving Repr, DecidableEq

/-- An early `sys.exit(0)`: nothing decided, `st` left on disk. -/
def exitOutcome (st : PState) : Outcome :=
  { category := "", notify := false, status := "", active_pack := "", state := st }

/-- The pipeline tail after `route_event`: an ignored event exits without
saving (so the pre-rotation state `st0` is what persists), otherwise the
Stop debounce, replay suppression and category enablement run in order. -/
def postRoute (st0 : PState) (cfg : Config) (event session_id active_pack : String)
    (now : ℚ) : Option (Decision × PState) → Outcome
  | none => exitOutcome st0
  | some (d, st1) =>
    let db := debounceStop event d.category d.notify st1 now
    let rp := replayStep event db.1 db.2.1 db.2.2 session_id now
    { category := enableStep cfg rp.1, notify := rp.2.1, status := d.status,
      active_pack := active_pack, state := rp.2.2 }

/-- `handle_hook_event` from `peon.py`, from the parsed payload up to the
final category decision (sound playback and dispatch are outside the model;
`pick_sound` is modelled separately). -/
def handle_hook_event (cfg : Config) (st0 : PState) (inp : HookInput) (now : ℚ)
    (k : Nat) : Outcome :=
  if cfg.enabled = false then exitOutcome st0
  else
    let event := normalizeEvent inp.hook_event_name
    let session_id := resolveSession inp
    if inp.permission_mode ≠ "" ∧ inp.permission_mode ∈ agentModes then
      exitOutcome { st0 with agent_sessions := addToSet st0.agent_sessions session_id }
    else if session_id ∈ st0.agent_sessions then exitOutcome st0
    else
      let ap := packRotationStep cfg st0 session_id k
      postRoute st0 cfg event session_id ap.1 now
        (route_event event inp.notification_type cfg ap.2 session_id
          (get_project_name (resolveCwd inp)) now)

/-- A Stop payload for session `sid`, as Claude Code sends it. -/
def stopInput (sid : String) : HookInput :=
  { hook_event_name := "Stop", session_id := sid }

/-- A SessionStart payload for session `sid`. -/
def startInput (sid : String) : HookInput :=
  { hook_event_name := "SessionStart", session_id := sid }

/-- Categories decided by a run of UserPromptSubmit events at the given
times for one session, threading the state returned by `route_event`. -/
def runPrompts (cfg : Config) (st : PState) (sid proj : String) :
    List ℚ → List String
  | [] => []
  | t :: ts =>
    match route_event "UserPromptSubmit" "" cfg st sid proj t with
    | none => []
    | some (d, st1) => d.category :: runPrompts cfg st1 sid proj ts

/-- A config with a round-robin pack rotation over three packs. -/
def cfgRR : Config :=
  { pack_rotation := ["a", "b", "c"], pack_rotation_mode := "round-robin" }

/-- Packs assigned to a run of SessionStart events, threading the pipeline state. -/
def runStarts (cfg : Config) (st : PState) : List (String × ℚ) → List String
  | [] => []
  | (sid, t) :: rest =>
      (handle_hook_event cfg st (startInput sid) t 0).active_pack ::
        runStarts cfg (handle_hook_event cfg st (startInput sid) t 0).state rest

/-- The pipeline state after a run of SessionStart events. -/
def runStartsState (cfg : Config) (st : PState) : List (String × ℚ) → PState
  | [] => st
  | (sid, t) :: rest =>
      runStartsState cfg (handle_hook_event cfg st (startInput sid) t 0).state rest

/-! ## Theorems -/

/-! ### Association-list lemmas -/

theorem lookupA_eraseA_self {α : Type} (m : List (String × α)) (k : String) :
    lookupA (eraseA m k) k = none := by
  induction m with
  | nil => rfl
  | cons hd tl ih =>
    by_cases h : hd.1 = k
    · simpa [eraseA, h] using ih
    · simpa [eraseA, lookupA, h] using ih

theorem lookupA_append_none {α : Type} (m1 m2 : List (String × α)) (k : String)
    (h : lookupA m1 k = none) : lookupA (m1 ++ m2) k = lookupA m2 k := by
  induction m1 with
  | nil => rfl
  | cons hd tl ih =>
    by_cases hk : hd.1 = k
    · simp [lookupA, hk] at h
    · simp only [lookupA, hk, if_false, List.cons_append] at h ⊢
      exact ih h

theorem lookupA_insertA_self {α : Type} (m : List (String × α)) (k : String) (v : α) :
    lookupA (insertA m k v) k = some v := by
  rw [insertA, lookupA_append_none _ _ _ (lookupA_eraseA_self m k)]
  simp [lookupA]

theorem lookupA_eraseA_ne {α : Type} (m : List (String × α)) (k k' : String)
    (h : k' ≠ k) : lookupA (eraseA m k) k' = lookupA m k' := by
  induction m with
  | nil => rfl
  | cons hd tl ih =>
    simp only [eraseA, lookupA]
    by_cases hk : hd.1 = k
    · have hne : hd.1 ≠ k' := by
        rw [hk]
        exact fun hh => h hh.symm
      rw [if_pos hk, ih, if_neg hne]
    · rw [if_neg hk]
      simp only [lookupA]
      by_cases hk' : hd.1 = k'
      · rw [if_pos hk', if_pos hk']
      · rw [if_neg hk', if_neg hk', ih]

theorem lookupA_insertA_ne {α : Type} (m : List (String × α)) (k k' : String) (v : α)
    (h : k' ≠ k) : lookupA (insertA m k v) k' = lookupA m k' := by
  rw [insertA, ← lookupA_eraseA_ne m k k' h]
  induction eraseA m k with
  | nil =>
    have : ¬ k = k' := fun hh => h hh.symm
    simp [lookupA, this]
  | cons hd tl ih =>
    by_cases hb : hd.1 = k'
    · simp [lookupA, hb]
    · simp only [List.cons_append, lookupA, hb, if_false]
      exact ih


theorem route_session_start (nt : String) (cfg : Config) (st : PState) (sid proj : String) (now : ℚ) :
    route_event "SessionStart" nt cfg st sid proj now =
      some ({ category := "session.start", status := "ready", marker := "",
              notify := false, notify_color := "", msg := "" }, st) := by
  simp only [route_event]
  rw [if_pos True.intro]

theorem route_prompt (nt : String) (cfg : Config) (st : PState) (sid proj : String) (now : ℚ) :
    route_event "UserPromptSubmit" nt cfg st sid proj now =
      some ({ category := if catCfgEnabled cfg "user.spam" ∧
                cfg.annoyed_threshold ≤ (prunedTs cfg st sid now).length
              then "user.spam" else "",
              status := "working", marker := "", notify := false,
              notify_color := "", msg := "" }, promptStateUpd cfg st sid now) := by
  have h1 : ("UserPromptSubmit" : String) ≠ "SessionStart" := by decide
  simp only [route_event]
  rw [if_neg h1, if_pos True.intro]

theorem route_stop (nt : String) (cfg : Config) (st : PState) (sid proj : String) (now : ℚ) :
    route_event "Stop" nt cfg st sid proj now =
      if stopSilent cfg st sid now then
        some ({ category := "", status := "done", marker := "", notify := false,
                notify_color := "", msg := "" }, stopStateUpd cfg st sid)
      else
        some ({ category := "task.complete", status := "done", marker := "● ",
                notify := true, notify_color := "blue",
                msg := proj ++ "  —  Task complete" }, stopStateUpd cfg st sid) := by
  have h1 : ("Stop" : String) ≠ "SessionStart" := by decide
  have h2 : ("Stop" : String) ≠ "UserPromptSubmit" := by decide
  simp only [route_event]
  rw [if_neg h1, if_neg h2, if_pos True.intro]

/-! stage lemmas -/

theorem stopStateUpd_off (cfg : Config) (st : PState) (sid : String)
    (hw : ¬ 0 < cfg.silent_window_seconds) : stopStateUpd cfg st sid = st := by
  simp [stopStateUpd, hw]

theorem promptStateUpd_fields (cfg : Config) (st : PState) (sid : String) (now : ℚ) :
    (promptStateUpd cfg st sid now).agent_sessions = st.agent_sessions ∧
    (promptStateUpd cfg st sid now).session_packs = st.session_packs ∧
    (promptStateUpd cfg st sid now).rotation_index = st.rotation_index ∧
    (promptStateUpd cfg st sid now).last_stop_time = st.last_stop_time ∧
    (promptStateUpd cfg st sid now).session_start_times = st.session_start_times := by
  simp only [promptStateUpd]
  split_ifs <;> simp

theorem stopStateUpd_fields (cfg : Config) (st : PState) (sid : String) :
    (stopStateUpd cfg st sid).agent_sessions = st.agent_sessions ∧
    (stopStateUpd cfg st sid).session_packs = st.session_packs ∧
    (stopStateUpd cfg st sid).rotation_index = st.rotation_index ∧
    (stopStateUpd cfg st sid).last_stop_time = st.last_stop_time ∧
    (stopStateUpd cfg st sid).session_start_times = st.session_start_times := by
  simp only [stopStateUpd]
  split_ifs <;> simp

theorem route_event_fields (ev nt : String) (cfg : Config) (st : PState)
    (sid proj : String) (now : ℚ) (d : Decision) (st' : PState)
    (h : route_event ev nt cfg st sid proj now = some (d, st')) :
    st'.agent_sessions = st.agent_sessions ∧
    st'.session_packs = st.session_packs ∧
    st'.rotation_index = st.rotation_index ∧
    st'.last_stop_time = st.last_stop_time ∧
    st'.session_start_times = st.session_start_times := by
  simp only [route_event] at h
  split_ifs at h <;>
    simp only [Option.some.injEq, Prod.mk.injEq] at h <;>
    obtain ⟨-, h2⟩ := h <;>
    subst h2 <;>
    first
      | exact ⟨rfl, rfl, rfl, rfl, rfl⟩
      | exact promptStateUpd_fields cfg st sid now
      | exact stopStateUpd_fields cfg st sid

theorem packRotationStep_fields (cfg : Config) (st : PState) (sid : String) (k : Nat) :
    (packRotationStep cfg st sid k).2.agent_sessions = st.agent_sessions ∧
    (packRotationStep cfg st sid k).2.prompt_timestamps = st.prompt_timestamps ∧
    (packRotationStep cfg st sid k).2.prompt_start_times = st.prompt_start_times ∧
    (packRotationStep cfg st sid k).2.last_stop_time = st.last_stop_time ∧
    (packRotationStep cfg st sid k).2.session_start_times = st.session_start_times := by
  simp only [packRotationStep, assignPack]
  rcases lookupA st.session_packs sid with _ | p
  · split_ifs <;> simp
  · by_cases hp : p ∈ cfg.pack_rotation <;> split_ifs <;> simp [hp]

theorem debounce_not_stop (event c : String) (n : Bool) (st : PState) (now : ℚ)
    (h : event ≠ "Stop") : debounceStop event c n st now = (c, n, st) := by
  simp [debounceStop, h]

theorem debounce_stop_recent (c : String) (n : Bool) (st : PState) (now : ℚ)
    (h : now - st.last_stop_time < 5) :
    debounceStop "Stop" c n st now = ("", false, { st with last_stop_time := now }) := by
  simp [debounceStop, h]

theorem debounce_stop_spaced (c : String) (n : Bool) (st : PState) (now : ℚ)
    (h : ¬ now - st.last_stop_time < 5) :
    debounceStop "Stop" c n st now = (c, n, { st with last_stop_time := now }) := by
  simp [debounceStop, h]

theorem replay_session_start (c : String) (n : Bool) (st : PState) (sid : String) (now : ℚ) :
    replayStep "SessionStart" c n st sid now =
      (c, n, { st with session_start_times := insertA st.session_start_times sid now }) := by
  simp [replayStep]

theorem replay_cleared (event c : String) (n : Bool) (st : PState) (sid : String) (now : ℚ)
    (hev : event ≠ "SessionStart") (hc : c ≠ "")
    (h : ((lookupA st.session_start_times sid).getD 0) ≠ 0 ∧
      now - ((lookupA st.session_start_times sid).getD 0) < 3) :
    replayStep event c n st sid now = ("", false, st) := by
  simp [replayStep, hev, hc, h]

theorem replay_kept (event c : String) (n : Bool) (st : PState) (sid : String) (now : ℚ)
    (hev : event ≠ "SessionStart")
    (h : ¬ (((lookupA st.session_start_times sid).getD 0) ≠ 0 ∧
      now - ((lookupA st.session_start_times sid).getD 0) < 3)) :
    replayStep event c n st sid now = (c, n, st) := by
  by_cases hc : c = "" <;> simp [replayStep, hev, hc, h]

theorem enableStep_empty (cfg : Config) : enableStep cfg "" = "" := by
  simp [enableStep]

theorem enableStep_on (cfg : Config) (c : String) (h : catEnabled cfg c = true) :
    enableStep cfg c = c := by
  simp [enableStep, h]

theorem enableStep_off (cfg : Config) (c : String) (h : catEnabled cfg c = false)
    (hc : c ≠ "") : enableStep cfg c = "" := by
  simp [enableStep, h, hc]

/-! pipeline path lemmas -/

theorem hhe_disabled (cfg : Config) (st0 : PState) (inp : HookInput) (now : ℚ) (k : Nat)
    (h : cfg.enabled = false) : handle_hook_event cfg st0 inp now k = exitOutcome st0 := by
  simp [handle_hook_event, h]

theorem hhe_delegate (cfg : Config) (st0 : PState) (inp : HookInput) (now : ℚ) (k : Nat)
    (hen : cfg.enabled = true)
    (hd : inp.permission_mode ≠ "" ∧ inp.permission_mode ∈ agentModes) :
    handle_hook_event cfg st0 inp now k =
      exitOutcome { st0 with
        agent_sessions := addToSet st0.agent_sessions (resolveSession inp) } := by
  simp only [handle_hook_event]
  rw [if_neg (by simp [hen]), if_pos hd]

theorem hhe_member (cfg : Config) (st0 : PState) (inp : HookInput) (now : ℚ) (k : Nat)
    (hen : cfg.enabled = true)
    (hpm : ¬ (inp.permission_mode ≠ "" ∧ inp.permission_mode ∈ agentModes))
    (hmem : resolveSession inp ∈ st0.agent_sessions) :
    handle_hook_event cfg st0 inp now k = exitOutcome st0 := by
  simp only [handle_hook_event]
  rw [if_neg (by simp [hen]), if_neg hpm, if_pos hmem]

theorem hhe_normal (cfg : Config) (st0 : PState) (inp : HookInput) (now : ℚ) (k : Nat)
    (hen : cfg.enabled = true)
    (hpm : ¬ (inp.permission_mode ≠ "" ∧ inp.permission_mode ∈ agentModes))
    (hmem : resolveSession inp ∉ st0.agent_sessions) :
    handle_hook_event cfg st0 inp now k =
      postRoute st0 cfg (normalizeEvent inp.hook_event_name) (resolveSession inp)
        (packRotationStep cfg st0 (resolveSession inp) k).1 now
        (route_event (normalizeEvent inp.hook_event_name) inp.notification_type cfg
          (packRotationStep cfg st0 (resolveSession inp) k).2 (resolveSession inp)
          (get_project_name (resolveCwd inp)) now) := by
  simp only [handle_hook_event]
  rw [if_neg (by simp [hen]), if_neg hpm, if_neg hmem]

theorem replay_nocat (event : String) (n : Bool) (st : PState) (sid : String) (now : ℚ)
    (hev : event ≠ "SessionStart") :
    replayStep event "" n st sid now = ("", n, st) := by
  simp [replayStep, hev]

theorem hhe_session_start_eq (cfg : Config) (st : PState) (inp : HookInput) (t : ℚ) (k : Nat)
    (hen : cfg.enabled = true)
    (hpm : ¬ (inp.permission_mode ≠ "" ∧ inp.permission_mode ∈ agentModes))
    (hmem : resolveSession inp ∉ st.agent_sessions)
    (hev : normalizeEvent inp.hook_event_name = "SessionStart") :
    handle_hook_event cfg st inp t k =
      { category := enableStep cfg "session.start", notify := false, status := "ready",
        active_pack := (packRotationStep cfg st (resolveSession inp) k).1,
        state := { (packRotationStep cfg st (resolveSession inp) k).2 with
          session_start_times :=
            insertA (packRotationStep cfg st (resolveSession inp) k).2.session_start_times
              (resolveSession inp) t } } := by
  rw [hhe_normal cfg st inp t k hen hpm hmem, hev, route_session_start]
  simp only [postRoute]
  rw [debounce_not_stop _ _ _ _ _ (by decide), replay_session_start]

theorem hhe_stop_eq (cfg : Config) (st : PState) (inp : HookInput) (t : ℚ) (k : Nat)
    (hen : cfg.enabled = true)
    (hpm : ¬ (inp.permission_mode ≠ "" ∧ inp.permission_mode ∈ agentModes))
    (hmem : resolveSession inp ∉ st.agent_sessions)
    (hev : normalizeEvent inp.hook_event_name = "Stop")
    (hw : ¬ 0 < cfg.silent_window_seconds) :
    handle_hook_event cfg st inp t k =
      (if t - st.last_stop_time < 5 then
        { category := "", notify := false, status := "done",
          active_pack := (packRotationStep cfg st (resolveSession inp) k).1,
          state := { (packRotationStep cfg st (resolveSession inp) k).2 with
            last_stop_time := t } }
      else if ((lookupA st.session_start_times (resolveSession inp)).getD 0) ≠ 0 ∧
          t - ((lookupA st.session_start_times (resolveSession inp)).getD 0) < 3 then
        { category := "", notify := false, status := "done",
          active_pack := (packRotationStep cfg st (resolveSession inp) k).1,
          state := { (packRotationStep cfg st (resolveSession inp) k).2 with
            last_stop_time := t } }
      else
        { category := enableStep cfg "task.complete", notify := true, status := "done",
          active_pack := (packRotationStep cfg st (resolveSession inp) k).1,
          state := { (packRotationStep cfg st (resolveSession inp) k).2 with
            last_stop_time := t } }) := by
  have hfields := packRotationStep_fields cfg st (resolveSession inp) k
  have hl : (packRotationStep cfg st (resolveSession inp) k).2.last_stop_time =
      st.last_stop_time := hfields.2.2.2.1
  have hss : (packRotationStep cfg st (resolveSession inp) k).2.session_start_times =
      st.session_start_times := hfields.2.2.2.2
  rw [hhe_normal cfg st inp t k hen hpm hmem, hev, route_stop]
  have hns : ¬ stopSilent cfg (packRotationStep cfg st (resolveSession inp) k).2
      (resolveSession inp) t := fun h => hw h.1
  rw [if_neg hns, stopStateUpd_off _ _ _ hw]
  simp only [postRoute]
  by_cases hd : t - st.last_stop_time < 5
  · rw [debounce_stop_recent _ _ _ _ (by rw [hl]; exact hd)]
    dsimp only
    rw [replay_nocat _ _ _ _ _ (by decide), if_pos hd, enableStep_empty]
  · rw [debounce_stop_spaced _ _ _ _ (by rw [hl]; exact hd), if_neg hd]
    dsimp only
    by_cases hr : ((lookupA st.session_start_times (resolveSession inp)).getD 0) ≠ 0 ∧
        t - ((lookupA st.session_start_times (resolveSession inp)).getD 0) < 3
    · rw [replay_cleared _ _ _ _ _ _ (by decide) (by decide) (by simpa [hss] using hr),
        if_pos hr, enableStep_empty]
    · rw [replay_kept _ _ _ _ _ _ (by decide) (by simpa [hss] using hr), if_neg hr]

theorem resolveSession_stopInput (sid : String) : resolveSession (stopInput sid) = sid := by
  by_cases h : sid = "" <;> simp [resolveSession, stopInput, h]

theorem resolveSession_startInput (sid : String) : resolveSession (startInput sid) = sid := by
  by_cases h : sid = "" <;> simp [resolveSession, startInput, h]

/-- C1: Global Stop debounce.  For two Stop events processed in sequence by
the pipeline (any sessions), when the second arrives less than 5 seconds
after the first, its decision has no category and notify is false; when the
two are at least 5 seconds apart (and the first is at least 5 seconds past
the recorded `last_stop_time`), both yield the normal task-complete
decision; and every Stop event sets `last_stop_time` to its own time, also
when it was itself suppressed.  The side hypotheses switch the unrelated
suppressions off: no silent window, `task.complete` enabled, non-agent
sessions without a recorded SessionStart time. -/
theorem stop_debounce (cfg : Config) (st : PState) (sid1 sid2 : String) (t1 t2 : ℚ)
    (k1 k2 : Nat)
    (hen : cfg.enabled = true) (hw : ¬ 0 < cfg.silent_window_seconds)
    (hcat : catEnabled cfg "task.complete" = true)
    (ha1 : sid1 ∉ st.agent_sessions) (ha2 : sid2 ∉ st.agent_sessions)
    (hs1 : (lookupA st.session_start_times sid1).getD 0 = 0)
    (hs2 : (lookupA st.session_start_times sid2).getD 0 = 0) :
    (handle_hook_event cfg st (stopInput sid1) t1 k1).state.last_stop_time = t1 ∧
    (handle_hook_event cfg (handle_hook_event cfg st (stopInput sid1) t1 k1).state
        (stopInput sid2) t2 k2).state.last_stop_time = t2 ∧
    (t2 - t1 < 5 →
      (handle_hook_event cfg (handle_hook_event cfg st (stopInput sid1) t1 k1).state
          (stopInput sid2) t2 k2).category = "" ∧
      (handle_hook_event cfg (handle_hook_event cfg st (stopInput sid1) t1 k1).state
          (stopInput sid2) t2 k2).notify = false) ∧
    (5 ≤ t1 - st.last_stop_time → 5 ≤ t2 - t1 →
      (handle_hook_event cfg st (stopInput sid1) t1 k1).category = "task.complete" ∧
      (handle_hook_event cfg st (stopInput sid1) t1 k1).notify = true ∧
      (handle_hook_event cfg (handle_hook_event cfg st (stopInput sid1) t1 k1).state
          (stopInput sid2) t2 k2).category = "task.complete" ∧
      (handle_hook_event cfg (handle_hook_event cfg st (stopInput sid1) t1 k1).state
          (stopInput sid2) t2 k2).notify = true) := by
  have hpm1 : ¬ ((stopInput sid1).permission_mode ≠ "" ∧
      (stopInput sid1).permission_mode ∈ agentModes) := by simp [stopInput]
  have hpm2 : ¬ ((stopInput sid2).permission_mode ≠ "" ∧
      (stopInput sid2).permission_mode ∈ agentModes) := by simp [stopInput]
  have hev1 : normalizeEvent (stopInput sid1).hook_event_name = "Stop" :=
    (by decide : normalizeEvent "Stop" = "Stop")
  have hev2 : normalizeEvent (stopInput sid2).hook_event_name = "Stop" :=
    (by decide : normalizeEvent "Stop" = "Stop")
  have e1 := hhe_stop_eq cfg st (stopInput sid1) t1 k1 hen hpm1
    (by rw [resolveSession_stopInput]; exact ha1) hev1 hw
  rw [resolveSession_stopInput] at e1
  have o1state : (handle_hook_event cfg st (stopInput sid1) t1 k1).state =
      { (packRotationStep cfg st sid1 k1).2 with last_stop_time := t1 } := by
    rw [e1]; split_ifs <;> rfl
  have hrfields := packRotationStep_fields cfg st sid1 k1
  have o1agent : (handle_hook_event cfg st (stopInput sid1) t1 k1).state.agent_sessions =
      st.agent_sessions := by rw [o1state]; exact hrfields.1
  have o1ss : (handle_hook_event cfg st (stopInput sid1) t1 k1).state.session_start_times =
      st.session_start_times := by rw [o1state]; exact hrfields.2.2.2.2
  have o1last : (handle_hook_event cfg st (stopInput sid1) t1 k1).state.last_stop_time = t1 := by
    rw [o1state]
  have e2 := hhe_stop_eq cfg (handle_hook_event cfg st (stopInput sid1) t1 k1).state
    (stopInput sid2) t2 k2 hen hpm2
    (by rw [resolveSession_stopInput, o1agent]; exact ha2) hev2 hw
  rw [resolveSession_stopInput, o1ss, o1last] at e2
  refine ⟨o1last, ?_, ?_, ?_⟩
  · rw [e2]; split_ifs <;> rfl
  · intro hlt
    rw [e2, if_pos hlt]
    exact ⟨rfl, rfl⟩
  · intro hsp1 hsp2
    have hd1 : ¬ t1 - st.last_stop_time < 5 := by linarith
    have hd2 : ¬ t2 - t1 < 5 := by linarith
    have hr1 : ¬ (((lookupA st.session_start_times sid1).getD 0) ≠ 0 ∧
        t1 - ((lookupA st.session_start_times sid1).getD 0) < 3) := by
      rw [hs1]; simp
    have hr2 : ¬ (((lookupA st.session_start_times sid2).getD 0) ≠ 0 ∧
        t2 - ((lookupA st.session_start_times sid2).getD 0) < 3) := by
      rw [hs2]; simp
    rw [e2, if_neg hd2, if_neg hr2, e1, if_neg hd1, if_neg hr1]
    exact ⟨enableStep_on cfg _ hcat, rfl, enableStep_on cfg _ hcat, rfl⟩

theorem stop_debounce_witness :
    (handle_hook_event {} (handle_hook_event {} {} (stopInput "s1") 100 0).state
        (stopInput "s2") 102 0).category = "" ∧
    (handle_hook_event {} (handle_hook_event {} {} (stopInput "s1") 100 0).state
        (stopInput "s2") 102 0).notify = false :=
  (stop_debounce {} {} "s1" "s2" 100 102 0 0 rfl (by norm_num) (by decide)
    (by simp) (by simp) rfl rfl).2.2.1 (by norm_num)

/-- C4: Replay suppression.  Generally, any event other than SessionStart
whose decision carries a category is cleared (category and notify flag)
when the session's recorded, truthy SessionStart time is strictly within 3
seconds of now.  Concretely, from a fresh state, a SessionStart at `t0`
followed by a Stop at `t0 + 1` for the same session yields no category and
no notification, while the same Stop at `t0 + 4` yields the normal
task-complete decision (`t0 ≥ 5` keeps the epoch-zero defaults of the
debounce and of the truthiness convention out of the way). -/
theorem replay_suppression (t0 : ℚ) (h5 : 5 ≤ t0) :
    (∀ ev c : String, ∀ n : Bool, ∀ st : PState, ∀ sid : String, ∀ now : ℚ,
      ev ≠ "SessionStart" → c ≠ "" →
      ((lookupA st.session_start_times sid).getD 0) ≠ 0 →
      now - ((lookupA st.session_start_times sid).getD 0) < 3 →
      replayStep ev c n st sid now = ("", false, st)) ∧
    ((handle_hook_event {} (handle_hook_event {} {} (startInput "s1") t0 0).state
        (stopInput "s1") (t0 + 1) 0).category = "" ∧
     (handle_hook_event {} (handle_hook_event {} {} (startInput "s1") t0 0).state
        (stopInput "s1") (t0 + 1) 0).notify = false) ∧
    ((handle_hook_event {} (handle_hook_event {} {} (startInput "s1") t0 0).state
        (stopInput "s1") (t0 + 4) 0).category = "task.complete" ∧
     (handle_hook_event {} (handle_hook_event {} {} (startInput "s1") t0 0).state
        (stopInput "s1") (t0 + 4) 0).notify = true) := by
  have e0 := hhe_session_start_eq {} {} (startInput "s1") t0 0 rfl (by simp [startInput])
    (by rw [resolveSession_startInput]; simp)
    ((by decide : normalizeEvent "SessionStart" = "SessionStart"))
  rw [resolveSession_startInput] at e0
  have hrot : packRotationStep ({} : Config) ({} : PState) "s1" 0 = ("peon", {}) := by
    simp [packRotationStep]
  rw [hrot] at e0
  have hS1 : (handle_hook_event {} {} (startInput "s1") t0 0).state =
      { session_start_times := [("s1", t0)] } := by
    rw [e0]
    rfl
  have hlook : (lookupA ({ session_start_times := [("s1", t0)] } :
      PState).session_start_times "s1").getD 0 = t0 := by
    simp [lookupA]
  have hpm : ¬ ((stopInput "s1").permission_mode ≠ "" ∧
      (stopInput "s1").permission_mode ∈ agentModes) := by simp [stopInput]
  have hmm : resolveSession (stopInput "s1") ∉
      ({ session_start_times := [("s1", t0)] } : PState).agent_sessions := by
    rw [resolveSession_stopInput]; simp
  have e1 := hhe_stop_eq {} { session_start_times := [("s1", t0)] } (stopInput "s1")
    (t0 + 1) 0 rfl hpm hmm ((by decide : normalizeEvent "Stop" = "Stop")) (by norm_num)
  have e4 := hhe_stop_eq {} { session_start_times := [("s1", t0)] } (stopInput "s1")
    (t0 + 4) 0 rfl hpm hmm ((by decide : normalizeEvent "Stop" = "Stop")) (by norm_num)
  rw [resolveSession_stopInput, hlook] at e1 e4
  refine ⟨fun ev c n st sid now hev hc h3 h4 => replay_cleared ev c n st sid now hev hc ⟨h3, h4⟩,
    ?_, ?_⟩
  · rw [hS1, e1, if_neg (by intro h; simp at h; linarith),
      if_pos ⟨by intro h; rw [h] at h5; linarith, by linarith⟩]
    exact ⟨rfl, rfl⟩
  · rw [hS1, e4, if_neg (by intro h; simp at h; linarith),
      if_neg (by intro h; have := h.2; linarith)]
    constructor
    · exact enableStep_on {} "task.complete" (by decide)
    · rfl

theorem replay_suppression_witness :
    (handle_hook_event {} (handle_hook_event {} {} (startInput "s1") 100 0).state
        (stopInput "s1") (100 + 1) 0).category = "" ∧
    (handle_hook_event {} (handle_hook_event {} {} (startInput "s1") 100 0).state
        (stopInput "s1") (100 + 1) 0).notify = false :=
  (replay_suppression 100 (by norm_num)).2.1

theorem promptStateUpd_pt (cfg : Config) (st : PState) (sid : String) (now : ℚ)
    (hspam : catCfgEnabled cfg "user.spam" = true) :
    (promptStateUpd cfg st sid now).prompt_timestamps =
      insertA st.prompt_timestamps sid (prunedTs cfg st sid now) := by
  simp only [promptStateUpd, hspam]
  split_ifs <;> simp

theorem stopStateUpd_pst (cfg : Config) (st : PState) (sid : String)
    (hw : 0 < cfg.silent_window_seconds) :
    (stopStateUpd cfg st sid).prompt_start_times = eraseA st.prompt_start_times sid := by
  simp [stopStateUpd, hw]

/-- C2: Spam detection.  With category "user.spam" not disabled, a
UserPromptSubmit stores the session's prompt timestamps pruned to entries
strictly within `annoyed_window_seconds` of now with now appended
(`prunedTs`), and the decision's category is "user.spam" exactly when that
list's length reaches `annoyed_threshold`.  With the default config
(threshold 3, window 10), three prompts within 10 seconds trigger on the
third, and prompts spaced 10 seconds apart never trigger. -/
theorem user_spam_detection (cfg : Config) (st : PState) (nt sid proj : String) (now : ℚ)
    (hspam : catCfgEnabled cfg "user.spam" = true) :
    (∃ d st', route_event "UserPromptSubmit" nt cfg st sid proj now = some (d, st') ∧
      lookupA st'.prompt_timestamps sid = some (prunedTs cfg st sid now) ∧
      (d.category = "user.spam" ↔
        cfg.annoyed_threshold ≤ (prunedTs cfg st sid now).length)) ∧
    runPrompts {} {} "s" "p" [100, 104, 108] = ["", "", "user.spam"] ∧
    runPrompts {} {} "s" "p" [100, 110, 120, 130] = ["", "", "", ""] := by
  refine ⟨?_, ?_, ?_⟩
  · rw [route_prompt]
    refine ⟨_, _, rfl, ?_, ?_⟩
    · rw [promptStateUpd_pt cfg st sid now hspam, lookupA_insertA_self]
    · by_cases hth : cfg.annoyed_threshold ≤ (prunedTs cfg st sid now).length
      · rw [if_pos ⟨by rw [hspam], hth⟩]
        simp [hth]
      · rw [if_neg (fun h => hth h.2)]
        constructor
        · intro h
          exact absurd h (by decide)
        · intro h
          exact absurd h hth
  · rw [runPrompts, route_prompt]
    norm_num [prunedTs, promptStateUpd, catCfgEnabled, lookupA, insertA, eraseA]
    rw [runPrompts, route_prompt]
    norm_num [prunedTs, promptStateUpd, catCfgEnabled, lookupA, insertA, eraseA]
    rw [runPrompts, route_prompt]
    norm_num [prunedTs, promptStateUpd, catCfgEnabled, lookupA, insertA, eraseA, runPrompts]
  · rw [runPrompts, route_prompt]
    norm_num [prunedTs, promptStateUpd, catCfgEnabled, lookupA, insertA, eraseA]
    rw [runPrompts, route_prompt]
    norm_num [prunedTs, promptStateUpd, catCfgEnabled, lookupA, insertA, eraseA]
    rw [runPrompts, route_prompt]
    norm_num [prunedTs, promptStateUpd, catCfgEnabled, lookupA, insertA, eraseA]
    rw [runPrompts, route_prompt]
    norm_num [prunedTs, promptStateUpd, catCfgEnabled, lookupA, insertA, eraseA, runPrompts]

theorem user_spam_detection_witness :
    runPrompts {} {} "s" "p" [100, 104, 108] = ["", "", "user.spam"] :=
  (user_spam_detection {} {} "" "x" "p" 0 rfl).2.1

/-- C3: Silent completion window.  For a Stop with a positive silent window
and a recorded non-zero prompt-start for the session, a completion faster
than the window is silent (no category, no notify); otherwise the decision
is task.complete with notify true, blue color and a message naming the
project.  In both cases the recorded prompt-start entry is removed. -/
theorem silent_completion_window (cfg : Config) (st : PState) (nt sid proj : String)
    (now s : ℚ) (hw : 0 < cfg.silent_window_seconds)
    (hrec : lookupA st.prompt_start_times sid = some s) (hs : s ≠ 0) :
    ∃ d st', route_event "Stop" nt cfg st sid proj now = some (d, st') ∧
      lookupA st'.prompt_start_times sid = none ∧
      (now - s < cfg.silent_window_seconds → d.category = "" ∧ d.notify = false) ∧
      (¬ now - s < cfg.silent_window_seconds →
        d.category = "task.complete" ∧ d.notify = true ∧ d.notify_color = "blue" ∧
        d.msg = proj ++ "  —  Task complete") := by
  have hstart : stopStart cfg st sid = s := by simp [stopStart, hw, hrec]
  rw [route_stop]
  by_cases hlt : now - s < cfg.silent_window_seconds
  · have hsil : stopSilent cfg st sid now :=
      ⟨hw, by rw [hstart]; exact hs, by rw [hstart]; exact hlt⟩
    rw [if_pos hsil]
    refine ⟨_, _, rfl, ?_, fun _ => ⟨rfl, rfl⟩, fun hc => absurd hlt hc⟩
    rw [stopStateUpd_pst cfg st sid hw, lookupA_eraseA_self]
  · have hnsil : ¬ stopSilent cfg st sid now := by
      intro hsil
      exact hlt (by rw [← hstart]; exact hsil.2.2)
    rw [if_neg hnsil]
    refine ⟨_, _, rfl, ?_, fun hc => absurd hc hlt, fun _ => ⟨rfl, rfl, rfl, rfl⟩⟩
    rw [stopStateUpd_pst cfg st sid hw, lookupA_eraseA_self]

theorem silent_completion_window_witness :
    ∃ d st', route_event "Stop" "" { silent_window_seconds := 30 }
        { prompt_start_times := [("s", 100)] } "s" "p" 105 = some (d, st') ∧
      lookupA st'.prompt_start_times "s" = none ∧
      (105 - 100 < (30 : ℚ) → d.category = "" ∧ d.notify = false) ∧
      (¬ (105 : ℚ) - 100 < 30 →
        d.category = "task.complete" ∧ d.notify = true ∧ d.notify_color = "blue" ∧
        d.msg = "p" ++ "  —  Task complete") :=
  silent_completion_window { silent_window_seconds := 30 }
    { prompt_start_times := [("s", 100)] } "" "s" "p" 105 100 (by norm_num)
    (by simp [lookupA]) (by norm_num)

theorem addToSet_mem (l : List String) (x : String) (h : x ∈ l) : addToSet l x = l := by
  simp [addToSet, h]

theorem mem_addToSet (l : List String) (x y : String) (h : y ∈ l) : y ∈ addToSet l x := by
  by_cases hx : x ∈ l <;> simp [addToSet, hx, h]

theorem debounce_state_agent (ev c : String) (n : Bool) (st : PState) (now : ℚ) :
    (debounceStop ev c n st now).2.2.agent_sessions = st.agent_sessions := by
  simp only [debounceStop]
  split_ifs <;> rfl

theorem replay_state_agent (ev c : String) (n : Bool) (st : PState) (sid : String) (now : ℚ) :
    (replayStep ev c n st sid now).2.2.agent_sessions = st.agent_sessions := by
  simp only [replayStep]
  split_ifs <;> rfl

/-- C7: Pack rotation pinning and round-robin order.  A session whose pinned
pack is still in the rotation list keeps it with no state change;
round-robin over ["a", "b", "c"] hands "a", "b", "c", "a" to four fresh
sessions in order; and a repeated event for the first session reuses "a"
and leaves the pinned assignments untouched. -/
theorem pack_rotation_pinning (cfg : Config) (st : PState) (sid p : String) (k : Nat) :
    (cfg.pack_rotation ≠ [] → cfg.pack_rotation_mode ≠ "off" →
      lookupA st.session_packs sid = some p → p ∈ cfg.pack_rotation →
      packRotationStep cfg st sid k = (p, st)) ∧
    runStarts cfgRR {} [("s1", 100), ("s2", 200), ("s3", 300), ("s4", 400)] =
      ["a", "b", "c", "a"] ∧
    (handle_hook_event cfgRR
        (runStartsState cfgRR {} [("s1", 100), ("s2", 200), ("s3", 300), ("s4", 400)])
        (startInput "s1") 500 0).active_pack = "a" ∧
    (handle_hook_event cfgRR
        (runStartsState cfgRR {} [("s1", 100), ("s2", 200), ("s3", 300), ("s4", 400)])
        (startInput "s1") 500 0).state.session_packs =
      (runStartsState cfgRR {} [("s1", 100), ("s2", 200), ("s3", 300), ("s4", 400)]).session_packs := by
  refine ⟨?_, by decide, by decide, by decide⟩
  intro h1 h2 hp hm
  simp only [packRotationStep, hp]
  rw [if_pos ⟨h1, h2⟩, if_pos hm]

theorem pack_rotation_pinning_witness :
    packRotationStep cfgRR { session_packs := [("s1", "b")] } "s1" 0 =
      ("b", { session_packs := [("s1", "b")] }) :=
  (pack_rotation_pinning cfgRR { session_packs := [("s1", "b")] } "s1" "b" 0).1
    (by decide) (by decide) (by decide) (by decide)

/-- C8: Agent-session permanent silencing.  Any event whose session id is in
`agent_sessions` produces no category, no notification and no state change,
and membership in `agent_sessions` is preserved by processing any event
whatsoever, so a session never leaves the set. -/
theorem agent_session_silencing (cfg : Config) (st : PState) (now : ℚ) (k : Nat) :
    (∀ inp : HookInput, resolveSession inp ∈ st.agent_sessions →
      (handle_hook_event cfg st inp now k).category = "" ∧
      (handle_hook_event cfg st inp now k).notify = false ∧
      (handle_hook_event cfg st inp now k).state = st) ∧
    (∀ inp : HookInput, ∀ sid : String, sid ∈ st.agent_sessions →
      sid ∈ (handle_hook_event cfg st inp now k).state.agent_sessions) := by
  have hstep : ∀ inp : HookInput,
      (handle_hook_event cfg st inp now k).state.agent_sessions = st.agent_sessions ∨
      (handle_hook_event cfg st inp now k).state.agent_sessions =
        addToSet st.agent_sessions (resolveSession inp) := by
    intro inp
    by_cases hen : cfg.enabled = true
    · by_cases hpm : inp.permission_mode ≠ "" ∧ inp.permission_mode ∈ agentModes
      · right
        rw [hhe_delegate cfg st inp now k hen hpm]
        rfl
      · by_cases hmem : resolveSession inp ∈ st.agent_sessions
        · left
          rw [hhe_member cfg st inp now k hen hpm hmem]
          rfl
        · left
          rw [hhe_normal cfg st inp now k hen hpm hmem]
          rcases hroute : route_event (normalizeEvent inp.hook_event_name)
              inp.notification_type cfg
              (packRotationStep cfg st (resolveSession inp) k).2 (resolveSession inp)
              (get_project_name (resolveCwd inp)) now with _ | dst
          · rfl
          · rcases dst with ⟨d, st1⟩
            have h1 : st1.agent_sessions = st.agent_sessions := by
              rw [(route_event_fields _ _ _ _ _ _ _ _ _ hroute).1]
              exact (packRotationStep_fields cfg st (resolveSession inp) k).1
            show (replayStep _ _ _ (debounceStop _ _ _ st1 now).2.2 _ now).2.2.agent_sessions =
              st.agent_sessions
            rw [replay_state_agent, debounce_state_agent, h1]
    · left
      rw [hhe_disabled cfg st inp now k (by revert hen; cases cfg.enabled <;> simp)]
      rfl
  constructor
  · intro inp hmem
    by_cases hen : cfg.enabled = true
    · by_cases hpm : inp.permission_mode ≠ "" ∧ inp.permission_mode ∈ agentModes
      · rw [hhe_delegate cfg st inp now k hen hpm, addToSet_mem _ _ hmem]
        exact ⟨rfl, rfl, rfl⟩
      · rw [hhe_member cfg st inp now k hen hpm hmem]
        exact ⟨rfl, rfl, rfl⟩
    · rw [hhe_disabled cfg st inp now k (by revert hen; cases cfg.enabled <;> simp)]
      exact ⟨rfl, rfl, rfl⟩
  · intro inp sid hsid
    rcases hstep inp with h | h
    · rw [h]
      exact hsid
    · rw [h]
      exact mem_addToSet _ _ _ hsid

theorem agent_session_silencing_witness :
    (handle_hook_event {} { agent_sessions := ["x"] }
        { hook_event_name := "Stop", session_id := "x" } 100 0).category = "" ∧
    (handle_hook_event {} { agent_sessions := ["x"] }
        { hook_event_name := "Stop", session_id := "x" } 100 0).notify = false ∧
    (handle_hook_event {} { agent_sessions := ["x"] }
        { hook_event_name := "Stop", session_id := "x" } 100 0).state =
      { agent_sessions := ["x"] } :=
  (agent_session_silencing {} { agent_sessions := ["x"] } 100 0).1
    { hook_event_name := "Stop", session_id := "x" } (by decide)

theorem debounce_cat (ev c : String) (n : Bool) (st : PState) (now : ℚ) :
    (debounceStop ev c n st now).1 = c ∨ (debounceStop ev c n st now).1 = "" := by
  simp only [debounceStop]
  split_ifs <;> simp

theorem replay_cat (ev c : String) (n : Bool) (st : PState) (sid : String) (now : ℚ) :
    (replayStep ev c n st sid now).1 = c ∨ (replayStep ev c n st sid now).1 = "" := by
  simp only [replayStep]
  split_ifs <;> simp

theorem postRoute_some_cat (st0 : PState) (cfg : Config) (ev sid ap : String) (now : ℚ)
    (d : Decision) (st1 : PState) :
    (postRoute st0 cfg ev sid ap now (some (d, st1))).category = enableStep cfg d.category ∨
    (postRoute st0 cfg ev sid ap now (some (d, st1))).category = "" := by
  have hshow : (postRoute st0 cfg ev sid ap now (some (d, st1))).category =
      enableStep cfg ((replayStep ev ((debounceStop ev d.category d.notify st1 now).1)
        ((debounceStop ev d.category d.notify st1 now).2.1)
        ((debounceStop ev d.category d.notify st1 now).2.2) sid now).1) := rfl
  rcases replay_cat ev ((debounceStop ev d.category d.notify st1 now).1)
      ((debounceStop ev d.category d.notify st1 now).2.1)
      ((debounceStop ev d.category d.notify st1 now).2.2) sid now with h2 | h2
  · rcases debounce_cat ev d.category d.notify st1 now with h1 | h1
    · left
      rw [hshow, h2, h1]
    · right
      rw [hshow, h2, h1, enableStep_empty]
  · right
    rw [hshow, h2, enableStep_empty]

/-- C9: Category enablement.  When config lists "task.complete" as disabled,
no Stop event (under any raw spelling that normalises to Stop) ever yields
the final category "task.complete". -/
theorem category_enablement (cfg : Config) (st : PState) (inp : HookInput) (now : ℚ)
    (k : Nat) (hdis : lookupA cfg.categories "task.complete" = some false)
    (hev : normalizeEvent inp.hook_event_name = "Stop") :
    (handle_hook_event cfg st inp now k).category ≠ "task.complete" := by
  have hce : catEnabled cfg "task.complete" = false := by
    rw [catEnabled, if_pos (by decide), catCfgEnabled, hdis]
    rfl
  have hne : ("" : String) ≠ "task.complete" := by decide
  by_cases hen : cfg.enabled = true
  · by_cases hpm : inp.permission_mode ≠ "" ∧ inp.permission_mode ∈ agentModes
    · rw [hhe_delegate cfg st inp now k hen hpm]
      exact hne
    · by_cases hmem : resolveSession inp ∈ st.agent_sessions
      · rw [hhe_member cfg st inp now k hen hpm hmem]
        exact hne
      · rw [hhe_normal cfg st inp now k hen hpm hmem, hev, route_stop]
        by_cases hsil : stopSilent cfg (packRotationStep cfg st (resolveSession inp) k).2
            (resolveSession inp) now
        · rw [if_pos hsil]
          rcases postRoute_some_cat st cfg "Stop" (resolveSession inp)
              (packRotationStep cfg st (resolveSession inp) k).1 now
              { category := "", status := "done", marker := "", notify := false,
                notify_color := "", msg := "" }
              (stopStateUpd cfg (packRotationStep cfg st (resolveSession inp) k).2
                (resolveSession inp)) with h | h
          · rw [h, enableStep_empty]
            exact hne
          · rw [h]
            exact hne
        · rw [if_neg hsil]
          rcases postRoute_some_cat st cfg "Stop" (resolveSession inp)
              (packRotationStep cfg st (resolveSession inp) k).1 now
              { category := "task.complete", status := "done", marker := "● ",
                notify := true, notify_color := "blue",
                msg := get_project_name (resolveCwd inp) ++ "  —  Task complete" }
              (stopStateUpd cfg (packRotationStep cfg st (resolveSession inp) k).2
                (resolveSession inp)) with h | h
          · rw [h, enableStep_off cfg "task.complete" hce (by decide)]
            exact hne
          · rw [h]
            exact hne
  · rw [hhe_disabled cfg st inp now k (by revert hen; cases cfg.enabled <;> simp)]
    exact hne

theorem category_enablement_witness :
    (handle_hook_event { categories := [("task.complete", false)] } {}
        (stopInput "s") 100 0).category ≠ "task.complete" :=
  category_enablement { categories := [("task.complete", false)] } {} (stopInput "s") 100 0
    (by decide) ((by decide : normalizeEvent "Stop" = "Stop"))

theorem foldl_normStep_clean (r : List String) (acc : List String)
    (h : ∀ s ∈ r, cleanSeg s) : r.foldl normStep acc = acc ++ r := by
  induction r generalizing acc with
  | nil => simp
  | cons s rest ih =>
    rcases h s (by simp) with ⟨h1, h2, h3⟩
    rw [List.foldl_cons]
    have hstep : normStep acc s = acc ++ [s] := by simp [normStep, h1, h2, h3]
    rw [hstep, ih (acc ++ [s]) (fun t ht => h t (by simp [ht]))]
    simp

theorem normSegs_clean (r : List String) (h : ∀ s ∈ r, cleanSeg s) : normSegs r = r := by
  simpa [normSegs] using foldl_normStep_clean r [] h

theorem normStep_dotdot (acc : List String) : normStep acc ".." = acc.dropLast := by
  rw [normStep, if_neg (by decide), if_neg (by decide), if_pos rfl]

/-- C5: Path safety.  Every path `pick_sound` returns lies inside the pack
root's subtree, and the manifest entry "../../secret" (resolved against the
pack root because it carries a separator) normalises outside any non-root
pack directory, so `pick_sound` returns no playable file for it even as the
category's only entry — an ordinary no-sound outcome, not an error. -/
theorem pick_sound_path_safety (packRoot : List String)
    (hclean : ∀ s ∈ packRoot, cleanSeg s) (hne : packRoot ≠ [])
    (lastFile : String) (onDisk : List String → Bool) (k : Nat) :
    (∀ sounds : List Sound, ∀ f : String, ∀ p : List String,
      pick_sound packRoot sounds lastFile onDisk k = PickResult.picked f (some p) →
      insideRoot packRoot p = true) ∧
    pick_sound packRoot [⟨"../../secret"⟩] lastFile onDisk k =
      PickResult.picked "../../secret" none := by
  constructor
  · intro sounds f p h
    by_cases h0 : sounds.isEmpty = true
    · simp [pick_sound, h0] at h
    · simp only [pick_sound] at h
      rw [if_neg h0] at h
      rcases hg : (candidatesOf sounds lastFile).get?
          (k % (candidatesOf sounds lastFile).length) with _ | pk
      · rw [hg] at h
        exact absurd h (by simp)
      · rw [hg] at h
        dsimp only at h
        by_cases hin : insideRoot packRoot (resolveRef packRoot pk.file) = true
        · rw [if_pos hin] at h
          by_cases hdk : onDisk (resolveRef packRoot pk.file) = true
          · rw [if_pos hdk] at h
            injection h with hf hp
            injection hp with hp2
            rw [← hp2]
            exact hin
          · rw [if_neg hdk] at h
            exact absurd h (by simp)
        · rw [if_neg hin] at h
          exact absurd h (by simp)
  · have hres : resolveRef packRoot "../../secret" =
        (packRoot.dropLast.dropLast) ++ ["secret"] := by
      have hcs : containsSlash "../../secret" = true := by decide
      have hsp : splitOnSlash "../../secret" = ["..", "..", "secret"] := by decide
      have hbase : List.foldl normStep [] packRoot = packRoot := normSegs_clean packRoot hclean
      rw [resolveRef, if_pos hcs, if_neg (by decide : ¬ startsWithSlash "../../secret" = true),
        hsp, normSegs, List.foldl_append, hbase, List.foldl_cons, List.foldl_cons,
        List.foldl_cons, List.foldl_nil, normStep_dotdot, normStep_dotdot]
      rw [normStep, if_neg (by decide), if_neg (by decide), if_neg (by decide)]
    have hin : insideRoot packRoot (resolveRef packRoot "../../secret") = false := by
      rw [hres, insideRoot]
      have hpos : 0 < packRoot.length := List.length_pos.mpr hne
      have hlen : ¬ (packRoot.length < (packRoot.dropLast.dropLast ++ ["secret"]).length) := by
        simp only [List.length_append, List.length_dropLast, List.length_singleton]
        omega
      rw [decide_eq_false hlen, Bool.and_false]
    simp only [pick_sound]
    rw [if_neg (by decide : ¬ ([(⟨"../../secret"⟩ : Sound)] : List Sound).isEmpty = true)]
    rw [show candidatesOf [(⟨"../../secret"⟩ : Sound)] lastFile =
      [(⟨"../../secret"⟩ : Sound)] from by
        rw [candidatesOf, if_neg (by decide : ¬ ([(⟨"../../secret"⟩ : Sound)] :
          List Sound).length > 1)]]
    rw [show ([(⟨"../../secret"⟩ : Sound)] : List Sound).length = 1 from rfl, Nat.mod_one,
      show ([(⟨"../../secret"⟩ : Sound)] : List Sound).get? 0 =
        some (⟨"../../secret"⟩ : Sound) from rfl]
    dsimp only
    rw [if_neg (by rw [hin]; decide)]

theorem pick_sound_path_safety_witness :
    pick_sound ["home", "u", "packs", "p"] [⟨"../../secret"⟩] "" (fun _ => true) 0 =
      PickResult.picked "../../secret" none :=
  (pick_sound_path_safety ["home", "u", "packs", "p"] (by decide) (by decide) ""
    (fun _ => true) 0).2

theorem pick_sound_ne_last (packRoot : List String) (sounds : List Sound)
    (lastFile : String) (onDisk : List String → Bool) (k : Nat) (f : String)
    (r : Option (List String)) (hlen : 1 < sounds.length)
    (h : pick_sound packRoot sounds lastFile onDisk k = PickResult.picked f r) :
    f ≠ lastFile := by
  have h0 : ¬ sounds.isEmpty = true := by
    cases sounds with
    | nil => simp at hlen
    | cons a as => simp
  simp only [pick_sound] at h
  rw [if_neg h0] at h
  rcases hg : (candidatesOf sounds lastFile).get?
      (k % (candidatesOf sounds lastFile).length) with _ | pk
  · rw [hg] at h
    exact absurd h (by simp)
  · rw [hg] at h
    dsimp only at h
    have hmem : pk ∈ candidatesOf sounds lastFile := List.get?_mem hg
    have hpk : pk.file ≠ lastFile := by
      rw [candidatesOf, if_pos hlen] at hmem
      have hf := (List.mem_filter.mp hmem).2
      simpa using hf
    have hfpk : f = pk.file := by
      split_ifs at h <;> (injection h with h1 _; exact h1.symm)
    rw [hfpk]
    exact hpk

/-- C6: Non-repeating selection.  With more than one sound in the category
the candidate pool excludes the last-played file, so any returned pick
differs from it, and two consecutive calls for the category (the second
running against the file the first recorded) never return the same file
twice in a row; the chosen file is recorded as the category's new
last-played value; and with exactly one sound that sound is always
eligible, so repetition is possible. -/
theorem pick_sound_no_repeat (packRoot : List String) (sounds : List Sound)
    (lastFile : String) (onDisk : List String → Bool) (k : Nat) :
    (∀ f : String, ∀ r : Option (List String), 1 < sounds.length →
      pick_sound packRoot sounds lastFile onDisk k = PickResult.picked f r →
      f ≠ lastFile) ∧
    (∀ f1 f2 : String, ∀ r1 r2 : Option (List String),
      ∀ onDisk2 : List String → Bool, ∀ k2 : Nat, 1 < sounds.length →
      pick_sound packRoot sounds lastFile onDisk k = PickResult.picked f1 r1 →
      pick_sound packRoot sounds f1 onDisk2 k2 = PickResult.picked f2 r2 →
      f2 ≠ f1) ∧
    (∀ f : String, ∀ r : Option (List String), ∀ lp : List (String × String), ∀ cat : String,
      pick_sound packRoot sounds lastFile onDisk k = PickResult.picked f r →
      lookupA (updateLastPlayed lp cat (pick_sound packRoot sounds lastFile onDisk k)) cat =
        some f) ∧
    (∀ s : Sound, ∃ r, pick_sound packRoot [s] lastFile onDisk k =
      PickResult.picked s.file r) := by
  refine ⟨?_, ?_, ?_, ?_⟩
  · intro f r hlen h
    exact pick_sound_ne_last packRoot sounds lastFile onDisk k f r hlen h
  · intro f1 f2 r1 r2 onDisk2 k2 hlen h1 h2
    exact pick_sound_ne_last packRoot sounds f1 onDisk2 k2 f2 r2 hlen h2
  · intro f r lp cat h
    rw [h]
    exact lookupA_insertA_self lp cat f
  · intro s
    simp only [pick_sound]
    rw [if_neg (by simp : ¬ ([s] : List Sound).isEmpty = true)]
    rw [show candidatesOf [s] lastFile = [s] from by
      rw [candidatesOf, if_neg (by norm_num : ¬ ([s] : List Sound).length > 1)]]
    rw [show ([s] : List Sound).length = 1 from rfl, Nat.mod_one,
      show ([s] : List Sound).get? 0 = some s from rfl]
    dsimp only
    by_cases hin : insideRoot packRoot (resolveRef packRoot s.file) = true
    · rw [if_pos hin]
      by_cases hdk : onDisk (resolveRef packRoot s.file) = true
      · rw [if_pos hdk]
        exact ⟨_, rfl⟩
      · rw [if_neg hdk]
        exact ⟨_, rfl⟩
    · rw [if_neg hin]
      exact ⟨_, rfl⟩

theorem pick_sound_no_repeat_witness : ("b.wav" : String) ≠ "a.wav" :=
  (pick_sound_no_repeat ["r", "packs", "p"] [⟨"a.wav"⟩, ⟨"b.wav"⟩] "" (fun _ => true)
    0).2.1 "a.wav" "b.wav" (some ["r", "packs", "p", "sounds", "a.wav"])
    (some ["r", "packs", "p", "sounds", "b.wav"]) (fun _ => true) 0 (by decide)
    (by decide) (by decide)

/-- C10: Recording happens before the checks.  The file `pick_sound` picks —
and therefore the last-played value it records — does not depend on the
existence oracle; whenever the call returns a pick with no playable path,
the last-played entry still becomes that file; and with a single sound and
a failing existence check the call returns no path yet updates the
last-played entry — the mutation is not rolled back. -/
theorem pick_sound_records_before_checks (packRoot : List String) (sounds : List Sound)
    (lastFile : String) (onDisk onDisk2 : List String → Bool) (k : Nat) :
    (pickedFile (pick_sound packRoot sounds lastFile onDisk k) =
      pickedFile (pick_sound packRoot sounds lastFile onDisk2 k)) ∧
    (∀ f : String, pick_sound packRoot sounds lastFile onDisk k = PickResult.picked f none →
      ∀ lp : List (String × String), ∀ cat : String,
        lookupA (updateLastPlayed lp cat (pick_sound packRoot sounds lastFile onDisk k))
          cat = some f) ∧
    (∀ s : Sound, ∀ lp : List (String × String), ∀ cat : String,
      pick_sound packRoot [s] lastFile (fun _ => false) k = PickResult.picked s.file none ∧
      lookupA (updateLastPlayed lp cat (pick_sound packRoot [s] lastFile (fun _ => false) k))
        cat = some s.file) := by
  refine ⟨?_, ?_, ?_⟩
  · by_cases h0 : sounds.isEmpty = true
    · simp [pick_sound, h0]
    · simp only [pick_sound]
      rw [if_neg h0, if_neg h0]
      rcases hg : (candidatesOf sounds lastFile).get?
          (k % (candidatesOf sounds lastFile).length) with _ | pk
      · rfl
      · dsimp only
        split_ifs <;> rfl
  · intro f h lp cat
    rw [h]
    exact lookupA_insertA_self lp cat f
  · intro s lp cat
    have hp : pick_sound packRoot [s] lastFile (fun _ => false) k =
        PickResult.picked s.file none := by
      simp only [pick_sound]
      rw [if_neg (by simp : ¬ ([s] : List Sound).isEmpty = true)]
      rw [show candidatesOf [s] lastFile = [s] from by
        rw [candidatesOf, if_neg (by norm_num : ¬ ([s] : List Sound).length > 1)]]
      rw [show ([s] : List Sound).length = 1 from rfl, Nat.mod_one,
        show ([s] : List Sound).get? 0 = some s from rfl]
      dsimp only
      by_cases hin : insideRoot packRoot (resolveRef packRoot s.file) = true
      · rw [if_pos hin, if_neg (by simp : ¬ (false = true))]
      · rw [if_neg hin]
    exact ⟨hp, by rw [hp]; exact lookupA_insertA_self lp cat s.file⟩

theorem pick_sound_records_before_checks_witness :
    lookupA (updateLastPlayed [] "task.complete"
      (pick_sound ["r", "packs", "p"] [⟨"x.wav"⟩] "" (fun _ => false) 0)) "task.complete" =
      some "x.wav" :=
  (pick_sound_records_before_checks ["r", "packs", "p"] [⟨"x.wav"⟩] "" (fun _ => false)
    (fun _ => true) 0).2.1 "x.wav" (by decide) [] "task.complete"

end Peon
